import Mathlib

/-!
# Verification of the IoMt deployment workflow engine

Shallow embedding of the core logic of the IoMt repository:

* `app/application/services/DeploymentService.py` — per-step update logic
  (`update_step_status`) and the status aggregator
  (`_update_deployment_status_based_on_steps`);
* `app/domain/templates/DeploymentTemplate.py` — the template-method
  skeleton (`execute_deployment`, `_complete_step`, `_log_step`), the
  variant subclasses and the factory (`DeploymentTemplateFactory`).

Timestamps (`datetime.now(UTC)`) are modelled as `Nat` values supplied by
the caller; each external call is abstracted to a single instant.  Status
values are the literal strings used by the source ("未开始", "进行中",
"已完成", "失败", "已创建").  Python exceptions are modelled with `Except`.
-/

namespace IoMt

/-- One persisted deployment step, mirroring the step dictionaries handled by
`DeploymentService` (fields of `StepItemDTO`: `name`, `status`, `operator`
required; `started_at`, `ended_at`, `remark` optional). -/
structure Step where
  name : String
  status : String
  operator : String
  remark : Option String := none
  started_at : Option Nat := none
  ended_at : Option Nat := none
deriving DecidableEq

/-- The payload of `StepUpdateDTO` (`step_name`, `status`, `operator`
required, `remark` optional). -/
structure StepUpdateDTO where
  step_name : String
  status : String
  operator : String
  remark : Option String := none
deriving DecidableEq

/-- The body of the matching-step branch of
`DeploymentService.update_step_status` (lines 79–96): overwrite `status` and
`operator`, overwrite `remark` when the DTO carries a truthy remark, then set
`started_at` when moving to "进行中" with `started_at` unset, and on "已完成"
back-fill `started_at` if unset and always set `ended_at`.  `now` models
`datetime.now(UTC)` at the time of the call. -/
def applyStepUpdate (step : Step) (u : StepUpdateDTO) (now : Nat) : Step :=
  let s1 : Step := { step with status := u.status, operator := u.operator }
  let s2 : Step :=
    match u.remark with
    | some r => if r = "" then s1 else { s1 with remark := some r }
    | none => s1
  if u.status = "进行中" ∧ s2.started_at = none then
    { s2 with started_at := some now }
  else if u.status = "已完成" then
    let s3 : Step :=
      if s2.started_at = none then { s2 with started_at := some now } else s2
    { s3 with ended_at := some now }
  else
    s2

/-- A whole sequence of step updates, each with the time at which it was
issued, applied in order to one step. -/
def applyStepUpdates (step : Step) (us : List (StepUpdateDTO × Nat)) : Step :=
  us.foldl (fun s p => applyStepUpdate s p.1 p.2) step

/-- A freshly created step: status "未开始" and both timestamps unset, as in
the creation examples of `DeploymentCreateDTO` and `DomainFactory`. -/
def freshStep (n op : String) : Step :=
  { name := n, status := "未开始", operator := op }

/-- The status value that `_update_deployment_status_based_on_steps`
(DeploymentService lines 154–176) writes back for a given step list, `none`
when the list is empty and the function returns without any write. -/
def deployment_status_write (steps : List Step) : Option String :=
  if steps.isEmpty then none
  else
    let total := steps.length
    let completed := steps.countP (fun s => s.status == "已完成")
    let failed := steps.countP (fun s => s.status == "失败")
    let in_progress := steps.countP (fun s => s.status == "进行中")
    if failed > 0 then some "失败"
    else if completed = total then some "已完成"
    else if in_progress > 0 ∨ completed > 0 then some "进行中"
    else some "未开始"

/-- The deployment's status after `_update_deployment_status_based_on_steps`
runs, given its prior status: unchanged when no write occurs. -/
def update_deployment_status_based_on_steps (prior : String) (steps : List Step) : String :=
  match deployment_status_write steps with
  | none => prior
  | some s => s

/-- Helper for concrete aggregation tables: a step with only its name and
status relevant. -/
def mkStep (n st : String) : Step :=
  { name := n, status := st, operator := "admin" }

/-- One entry of the `logs` list built by `DeploymentTemplate._log_step`. -/
structure LogEntry where
  timestamp : Nat
  step : Nat
  message : String
  level : String
deriving DecidableEq

/-- Values stored in the open `attributes` mapping of a template instance
(strings, booleans, lists of strings and nested dictionaries cover every
payload written by the variants). -/
inductive AttrValue where
  | str (s : String)
  | boolean (b : Bool)
  | strList (l : List String)
  | table (entries : List (String × AttrValue))

/-- Python dictionary assignment `d[k] = v`: replace the existing binding or
append a new one. -/
def attrSet : List (String × AttrValue) → String → AttrValue → List (String × AttrValue)
  | [], k, v => [(k, v)]
  | (k', v') :: rest, k, v =>
    if k' = k then (k, v) :: rest else (k', v') :: attrSet rest k v

/-- Python dictionary lookup `d.get(k)`. -/
def attrGet : List (String × AttrValue) → String → Option AttrValue
  | [], _ => none
  | (k', v') :: rest, k => if k' = k then some v' else attrGet rest k

/-- The mutable state of a `DeploymentTemplate` object (fields set by
`DeploymentTemplate.__init__`, lines 37–51). -/
structure WInstance where
  id : String
  name : String
  commander : String
  target_location : String
  units : List String
  equipments : List String
  description : String
  attributes : List (String × AttrValue)
  status : String
  current_step : Nat
  steps_total : Nat
  steps_completed : List Nat
  created_at : Nat
  updated_at : Nat
  logs : List LogEntry

/-- `DeploymentTemplate._log_step`: append a log entry stamped with the
current step counter. -/
def log_step (i : WInstance) (message level : String) (now : Nat) : WInstance :=
  { i with logs := i.logs ++
      [{ timestamp := now, step := i.current_step, message := message, level := level }] }

/-- `DeploymentTemplate._complete_step`: increment `current_step`, append the
new value to `steps_completed`, refresh `updated_at`. -/
def complete_step (i : WInstance) (now : Nat) : WInstance :=
  { i with current_step := i.current_step + 1,
           steps_completed := i.steps_completed ++ [i.current_step + 1],
           updated_at := now }

/-- A phase hook: a variant method that may mutate the instance or raise
(`Except.error` carries `str(e)`). -/
def Hook : Type := WInstance → Except String WInstance

/-- A concrete variant: the deployment type string plus the five abstract
phase methods of `DeploymentTemplate`. -/
structure Variant where
  get_deployment_type : String
  prepare : Hook
  allocate_resources : Hook
  perform_deployment : Hook
  verify_deployment : Hook
  finalize : Hook

/-- The fixed phase sequence of `execute_deployment` (lines 65–88): each
phase's banner message paired with its hook, in source order. -/
def Variant.hooks (v : Variant) : List (String × Hook) :=
  [("1. 准备阶段", v.prepare),
   ("2. 资源调配", v.allocate_resources),
   ("3. 执行部署", v.perform_deployment),
   ("4. 验证部署", v.verify_deployment),
   ("5. 完成部署", v.finalize)]

/-- The phase loop inside the `try` block of `execute_deployment`: log the
banner, run the hook, complete the step, continue; a raise aborts the rest
and carries the instance state at the raise point out to the handler. -/
def run_phases (phases : List (String × Hook)) (i : WInstance) (now : Nat) :
    Except (String × WInstance) WInstance :=
  match phases with
  | [] => .ok i
  | (msg, h) :: rest =>
    let i1 := log_step i msg "信息" now
    match h i1 with
    | .error e => .error (e, i1)
    | .ok i2 => run_phases rest (complete_step i2 now) now

/-- The dictionary returned by `execute_deployment` (success and failure
shapes, lines 97–104 and 112–120). -/
structure ExecResult where
  id : String
  name : String
  status : String
  steps_completed : Nat
  steps_total : Nat
  updated_at : Nat
  error : Option String
deriving DecidableEq

/-- `DeploymentTemplate.execute_deployment` (lines 53–120): the template
method, returning the final instance state together with the result
dictionary.  `now` models `datetime.now(UTC)` during this call. -/
def execute_deployment (v : Variant) (i : WInstance) (now : Nat) :
    WInstance × ExecResult :=
  let i0 := log_step i "开始部署流程" "信息" now
  match run_phases v.hooks i0 now with
  | .ok i5 =>
    let i6 : WInstance := { i5 with status := "已完成", updated_at := now }
    let i7 := log_step i6 "部署流程完成" "信息" now
    (i7, { id := i7.id, name := i7.name, status := i7.status,
           steps_completed := i7.steps_completed.length,
           steps_total := i7.steps_total, updated_at := i7.updated_at,
           error := none })
  | .error (e, ie) =>
    let i6 : WInstance := { ie with status := "失败", updated_at := now }
    let i7 := log_step i6 ("部署失败: " ++ e) "错误" now
    (i7, { id := i7.id, name := i7.name, status := i7.status,
           steps_completed := i7.steps_completed.length,
           steps_total := i7.steps_total, updated_at := i7.updated_at,
           error := some e })

/-- Python exceptions relevant to construction: `TypeError` (unexpected
keyword argument) and `ValueError` (unsupported deployment type). -/
inductive PyError where
  | typeError (msg : String)
  | valueError (msg : String)
deriving DecidableEq

/-- The keyword arguments forwarded by `DeploymentTemplateFactory.create_deployment`
into the variant constructors.  `emergency_level` and `response_time` are the
extra keys read by `EmergencyDeployment.__init__` via `kwargs.get`; they are
not parameters of `DeploymentTemplate.__init__`. -/
structure TemplateKwargs where
  name : String
  commander : String
  target_location : String
  units : List String
  equipments : List String
  description : Option String := none
  attributes : Option (List (String × AttrValue)) := none
  emergency_level : Option String := none
  response_time : Option String := none

/-- `DeploymentTemplate.__init__` called with `**kwargs` (lines 17–51): a
keyword not in its parameter list raises `TypeError`; otherwise the instance
starts at status "已创建", `current_step = 0`, `steps_total = 5`, empty
`steps_completed` and `logs`.  `id` models the generated `uuid`. -/
def deployment_template_init (id : String) (now : Nat) (k : TemplateKwargs) :
    Except PyError WInstance :=
  if k.emergency_level.isSome ∨ k.response_time.isSome then
    .error (.typeError "__init__() got an unexpected keyword argument")
  else
    .ok { id := id, name := k.name, commander := k.commander,
          target_location := k.target_location, units := k.units,
          equipments := k.equipments, description := k.description.getD "",
          attributes := k.attributes.getD [], status := "已创建",
          current_step := 0, steps_total := 5, steps_completed := [],
          created_at := now, updated_at := now, logs := [] }

/-- `EmergencyDeployment.__init__` (lines 251–257): forward everything to
`super().__init__(*args, **kwargs)`, then set `steps_total` and the two extra
attribute keys from `kwargs.get` with defaults "高" and "2小时内". -/
def emergency_deployment_init (id : String) (now : Nat) (k : TemplateKwargs) :
    Except PyError WInstance :=
  match deployment_template_init id now k with
  | .error e => .error e
  | .ok i =>
    .ok { i with steps_total := 5,
                 attributes :=
                   attrSet (attrSet i.attributes "emergency_level"
                       (.str (k.emergency_level.getD "高")))
                     "response_time_required" (.str (k.response_time.getD "2小时内")) }

/-- A constructed template object, tagged with the value its
`get_deployment_type` method returns. -/
structure VariantInstance where
  dtype : String
  inst : WInstance

/-- `DeploymentTemplateFactory.create_deployment` (lines 364–383): dispatch
on the type string, constructing the matching subclass, or raise
`ValueError` for any other string. -/
def create_deployment (deployment_type : String) (id : String) (now : Nat)
    (k : TemplateKwargs) : Except PyError VariantInstance :=
  if deployment_type = "标准部署" then
    (deployment_template_init id now k).map (fun i => ⟨"标准部署", i⟩)
  else if deployment_type = "紧急部署" then
    (emergency_deployment_init id now k).map (fun i => ⟨"紧急部署", i⟩)
  else if deployment_type = "训练部署" then
    (deployment_template_init id now k).map (fun i => ⟨"训练部署", i⟩)
  else
    .error (.valueError ("不支持的部署类型: " ++ deployment_type))

/-- A hook behaves like the source variants' phase methods: on success it
only mutates `attributes` and `logs`, leaving identity, progress counters and
status untouched (every hook body in `DeploymentTemplate.py` only calls
`_log_step` and assigns `self.attributes[...]`). -/
def HookTame (h : Hook) : Prop :=
  ∀ i i', h i = .ok i' →
    i'.id = i.id ∧ i'.name = i.name ∧ i'.status = i.status ∧
    i'.current_step = i.current_step ∧ i'.steps_total = i.steps_total ∧
    i'.steps_completed = i.steps_completed

/-- The progress invariant: `steps_completed` is exactly `[1, …, current_step]`. -/
def StepsInv (i : WInstance) : Prop :=
  i.steps_completed = List.range' 1 i.current_step

/-- A hook that succeeds without touching the instance (the shape of a
variant phase whose attribute work is irrelevant to the claim at hand). -/
def idHook : Hook := fun i => .ok i

/-- A hook that raises with the given message. -/
def failHook (msg : String) : Hook := fun _ => .error msg

/-- A variant whose five phases all succeed. -/
def okVariant : Variant :=
  ⟨"标准部署", idHook, idHook, idHook, idHook, idHook⟩

/-- A variant whose third phase (`perform_deployment`) raises "网络中断". -/
def failAtPerformVariant : Variant :=
  ⟨"标准部署", idHook, idHook, failHook "网络中断", idHook, idHook⟩

/-- Sample construction kwargs carrying none of the emergency extras. -/
def sampleKwargs : TemplateKwargs :=
  { name := "京城防御部署", commander := "主帅", target_location := "北境",
    units := ["unit_001"], equipments := ["eq_001"] }

/-- A freshly initialised template instance, as `deployment_template_init`
produces it. -/
def sampleInstance : WInstance :=
  { id := "dep-1", name := "京城防御部署", commander := "主帅",
    target_location := "北境", units := ["unit_001"], equipments := ["eq_001"],
    description := "", attributes := [], status := "已创建", current_step := 0,
    steps_total := 5, steps_completed := [], created_at := 0, updated_at := 0,
    logs := [] }

/-- `applyStepUpdate` always overwrites the step's status with the DTO's. -/
theorem applyStepUpdate_status (step : Step) (u : StepUpdateDTO) (now : Nat) :
    (applyStepUpdate step u now).status = u.status := by
  unfold applyStepUpdate
  rcases hr : u.remark with _ | r <;> dsimp only <;> split_ifs <;> rfl

/-- Normal form of the `started_at` field after one update. -/
theorem applyStepUpdate_started_at (step : Step) (u : StepUpdateDTO) (now : Nat) :
    (applyStepUpdate step u now).started_at =
      if (u.status = "进行中" ∨ u.status = "已完成") ∧ step.started_at = none
      then some now else step.started_at := by
  unfold applyStepUpdate
  have hne : ("已完成" : String) ≠ "进行中" := by decide
  rcases hr : u.remark with _ | r <;> dsimp only <;>
    split_ifs <;> simp_all

/-- Normal form of the `ended_at` field after one update: set (to the call
time) exactly by a "已完成" update, untouched otherwise. -/
theorem applyStepUpdate_ended_at (step : Step) (u : StepUpdateDTO) (now : Nat) :
    (applyStepUpdate step u now).ended_at =
      if u.status = "已完成" then some now else step.ended_at := by
  unfold applyStepUpdate
  have hne : ("已完成" : String) ≠ "进行中" := by decide
  rcases hr : u.remark with _ | r <;> dsimp only <;>
    split_ifs <;> simp_all

theorem applyStepUpdates_nil (s : Step) : applyStepUpdates s [] = s := rfl

theorem applyStepUpdates_cons (s : Step) (p : StepUpdateDTO × Nat)
    (us : List (StepUpdateDTO × Nat)) :
    applyStepUpdates s (p :: us) = applyStepUpdates (applyStepUpdate s p.1 p.2) us := rfl

/-- Across a whole update sequence, `ended_at` is set exactly when it was
already set or some update in the sequence carried status "已完成". -/
theorem applyStepUpdates_ended_at (us : List (StepUpdateDTO × Nat)) (s : Step) :
    (applyStepUpdates s us).ended_at ≠ none ↔
      (s.ended_at ≠ none ∨ ∃ p ∈ us, p.1.status = "已完成") := by
  induction us generalizing s with
  | nil => simp [applyStepUpdates]
  | cons p us ih =>
    rw [applyStepUpdates_cons, ih, applyStepUpdate_ended_at]
    by_cases h : p.1.status = "已完成" <;> simp [h]

theorem run_phases_append (l1 l2 : List (String × Hook)) (i : WInstance) (now : Nat) :
    run_phases (l1 ++ l2) i now =
      match run_phases l1 i now with
      | .ok j => run_phases l2 j now
      | .error e => .error e := by
  induction l1 generalizing i with
  | nil => rfl
  | cons p l1 ih =>
    rcases p with ⟨msg, h⟩
    simp only [List.cons_append, run_phases]
    cases hh : h (log_step i msg "信息" now) with
    | error e => simp [hh]
    | ok i2 => simp [hh, ih]

/-- Running a list of tame phases preserves identity fields and advances the
progress counters by exactly the number of phases run. -/
theorem run_phases_ok_fields (l : List (String × Hook)) (i i' : WInstance) (now : Nat)
    (ht : ∀ p ∈ l, HookTame p.2) (hrun : run_phases l i now = .ok i') :
    i'.id = i.id ∧ i'.name = i.name ∧ i'.steps_total = i.steps_total ∧
    i'.current_step = i.current_step + l.length ∧
    i'.steps_completed.length = i.steps_completed.length + l.length := by
  induction l generalizing i with
  | nil =>
    simp only [run_phases] at hrun
    cases hrun
    simp
  | cons p l ih =>
    rcases p with ⟨msg, h⟩
    simp only [run_phases] at hrun
    cases hh : h (log_step i msg "信息" now) with
    | error e =>
      rw [hh] at hrun
      cases hrun
    | ok i2 =>
      rw [hh] at hrun
      obtain ⟨hid, hname, hstat, hcs, hst, hsc⟩ :=
        ht (msg, h) (List.mem_cons_self _ _) _ _ hh
      simp only [log_step] at hid hname hstat hcs hst hsc
      obtain ⟨gid, gname, gst, gcs, gsc⟩ :=
        ih (complete_step i2 now) (fun q hq => ht q (List.mem_cons_of_mem _ hq)) hrun
      simp only [complete_step] at gid gname gst gcs gsc
      refine ⟨by rw [gid, hid], by rw [gname, hname], by rw [gst, hst], ?_, ?_⟩
      · rw [gcs, hcs]
        simp only [List.length_cons]
        omega
      · simp only [List.length_append, List.length_cons, List.length_nil, hsc] at gsc
        rw [gsc]
        simp only [List.length_cons]
        omega

/-- `_complete_step` preserves the `steps_completed = [1, …, current_step]`
invariant. -/
theorem complete_step_steps_inv (i : WInstance) (now : Nat) (h : StepsInv i) :
    StepsInv (complete_step i now) := by
  unfold StepsInv at h ⊢
  simp only [complete_step, h]
  rw [List.range'_concat]
  simp [Nat.add_comm]

/-- The phase loop preserves the progress invariant, in both the success and
the captured-failure outcome. -/
theorem run_phases_steps_inv (l : List (String × Hook)) (i : WInstance) (now : Nat)
    (ht : ∀ p ∈ l, HookTame p.2) (hinv : StepsInv i) :
    (∀ i', run_phases l i now = .ok i' → StepsInv i') ∧
    (∀ e i', run_phases l i now = .error (e, i') → StepsInv i') := by
  induction l generalizing i with
  | nil =>
    constructor
    · intro i' hrun
      simp only [run_phases] at hrun
      cases hrun
      exact hinv
    · intro e i' hrun
      simp only [run_phases] at hrun
      cases hrun
  | cons p l ih =>
    rcases p with ⟨msg, h⟩
    have hinv1 : StepsInv (log_step i msg "信息" now) := by
      simpa [StepsInv, log_step] using hinv
    constructor
    · intro i' hrun
      simp only [run_phases] at hrun
      cases hh : h (log_step i msg "信息" now) with
      | error e' =>
        rw [hh] at hrun
        cases hrun
      | ok i2 =>
        rw [hh] at hrun
        obtain ⟨-, -, -, hcs, -, hsc⟩ :=
          ht (msg, h) (List.mem_cons_self _ _) _ _ hh
        have hinv2 : StepsInv i2 := by
          unfold StepsInv at hinv1 ⊢
          rw [hsc, hcs]
          exact hinv1
        exact (ih (complete_step i2 now)
          (fun q hq => ht q (List.mem_cons_of_mem _ hq))
          (complete_step_steps_inv i2 now hinv2)).1 i' hrun
    · intro e i' hrun
      simp only [run_phases] at hrun
      cases hh : h (log_step i msg "信息" now) with
      | error e' =>
        rw [hh] at hrun
        cases hrun
        exact hinv1
      | ok i2 =>
        rw [hh] at hrun
        obtain ⟨-, -, -, hcs, -, hsc⟩ :=
          ht (msg, h) (List.mem_cons_self _ _) _ _ hh
        have hinv2 : StepsInv i2 := by
          unfold StepsInv at hinv1 ⊢
          rw [hsc, hcs]
          exact hinv1
        exact (ih (complete_step i2 now)
          (fun q hq => ht q (List.mem_cons_of_mem _ hq))
          (complete_step_steps_inv i2 now hinv2)).2 e i' hrun

theorem idHook_tame : HookTame idHook := by
  intro i i' h
  cases h
  exact ⟨rfl, rfl, rfl, rfl, rfl, rfl⟩

theorem okVariant_tame : ∀ p ∈ okVariant.hooks, HookTame p.2 := by
  intro p hp
  simp only [Variant.hooks, okVariant, List.mem_cons, List.not_mem_nil, or_false] at hp
  rcases hp with h | h | h | h | h <;> subst h <;> exact idHook_tame

/-- C1: for every non-empty step list the aggregator follows the fixed
first-match decision order — any "失败" step forces "失败"; otherwise all
steps "已完成" forces "已完成"; otherwise any "进行中" or "已完成" step
forces "进行中"; otherwise "未开始" — and the five literal `total=3` table
cases evaluate as the spec states. -/
theorem aggregator_decision_order (steps : List Step) (h : steps ≠ []) :
    ((∃ s ∈ steps, s.status = "失败") →
        deployment_status_write steps = some "失败") ∧
    ((¬ ∃ s ∈ steps, s.status = "失败") → (∀ s ∈ steps, s.status = "已完成") →
        deployment_status_write steps = some "已完成") ∧
    ((¬ ∃ s ∈ steps, s.status = "失败") → (¬ ∀ s ∈ steps, s.status = "已完成") →
        ((∃ s ∈ steps, s.status = "进行中") ∨ (∃ s ∈ steps, s.status = "已完成")) →
        deployment_status_write steps = some "进行中") ∧
    ((¬ ∃ s ∈ steps, s.status = "失败") → (¬ ∃ s ∈ steps, s.status = "进行中") →
        (¬ ∃ s ∈ steps, s.status = "已完成") →
        deployment_status_write steps = some "未开始") ∧
    (deployment_status_write
        [mkStep "a" "已完成", mkStep "b" "已完成", mkStep "c" "已完成"] = some "已完成" ∧
     deployment_status_write
        [mkStep "a" "已完成", mkStep "b" "失败", mkStep "c" "未开始"] = some "失败" ∧
     deployment_status_write
        [mkStep "a" "进行中", mkStep "b" "未开始", mkStep "c" "未开始"] = some "进行中" ∧
     deployment_status_write
        [mkStep "a" "未开始", mkStep "b" "未开始", mkStep "c" "未开始"] = some "未开始" ∧
     deployment_status_write
        [mkStep "a" "已完成", mkStep "b" "未开始", mkStep "c" "未开始"] = some "进行中") := by
  have hemp : steps.isEmpty = false := by
    cases steps with
    | nil => exact absurd rfl h
    | cons a t => rfl
  have aux0 : ∀ st : String, (¬ ∃ s ∈ steps, s.status = st) →
      steps.countP (fun s => s.status == st) = 0 := by
    intro st hst
    rw [List.countP_eq_zero]
    intro s hs
    simp only [beq_iff_eq]
    exact fun hq => hst ⟨s, hs, hq⟩
  have auxPos : ∀ st : String, (∃ s ∈ steps, s.status = st) →
      0 < steps.countP (fun s => s.status == st) := by
    rintro st ⟨s, hs, hq⟩
    exact List.countP_pos_iff.mpr ⟨s, hs, by simp [hq]⟩
  refine ⟨?_, ?_, ?_, ?_, ?_⟩
  · intro hex
    have hf := auxPos _ hex
    simp [deployment_status_write, hemp, hf]
  · intro hnf hall
    have hf0 := aux0 _ hnf
    have hc : steps.countP (fun s => s.status == "已完成") = steps.length :=
      List.countP_eq_length.mpr (fun s hs => by simp [hall s hs])
    simp [deployment_status_write, hemp, hf0, hc]
  · intro hnf hnall hor
    have hf0 := aux0 _ hnf
    have hne2 : steps.countP (fun s => s.status == "已完成") ≠ steps.length := by
      intro heq
      refine hnall (fun s hs => ?_)
      have hq := List.countP_eq_length.mp heq s hs
      simpa using hq
    have hpos : 0 < steps.countP (fun s => s.status == "进行中") ∨
        0 < steps.countP (fun s => s.status == "已完成") := by
      rcases hor with hex | hex
      · exact Or.inl (auxPos _ hex)
      · exact Or.inr (auxPos _ hex)
    simp [deployment_status_write, hemp, hf0, hne2, hpos]
    intro hall2
    rcases hor with ⟨s, hs, hq⟩ | hex
    · exact absurd hq (hall2 s hs)
    · exact hex
  · intro hnf hni hnc
    have hf0 := aux0 _ hnf
    have hi0 := aux0 _ hni
    have hc0 := aux0 _ hnc
    have hlen : steps.length ≠ 0 := by
      simpa [List.length_eq_zero] using h
    have hlen2 : (0 : Nat) ≠ steps.length := fun e => hlen e.symm
    simp [deployment_status_write, hemp, hf0, hi0, hc0, hlen, hlen2]
  · exact ⟨by decide, by decide, by decide, by decide, by decide⟩

/-- Witness for C1: the first decision rule applied to a concrete list with
one failed step. -/
theorem aggregator_decision_order_witness :
    deployment_status_write [mkStep "a" "失败", mkStep "b" "已完成"] = some "失败" :=
  (aggregator_decision_order [mkStep "a" "失败", mkStep "b" "已完成"] (by decide)).1
    ⟨mkStep "a" "失败", by decide, rfl⟩

/-- C6: the aggregator result depends only on the multiset of step statuses;
any two step lists whose status multisets agree (regardless of order or
names) aggregate identically. -/
theorem aggregator_perm_invariant (s1 s2 : List Step)
    (h : (s1.map Step.status).Perm (s2.map Step.status)) :
    deployment_status_write s1 = deployment_status_write s2 := by
  have hlen : s1.length = s2.length := by
    have hl := h.length_eq
    simpa using hl
  have hcnt : ∀ st : String,
      s1.countP (fun s => s.status == st) = s2.countP (fun s => s.status == st) := by
    intro st
    have h1 := List.countP_map (fun x => x == st) Step.status s1
    have h2 := List.countP_map (fun x => x == st) Step.status s2
    have h3 := h.countP_eq (fun x => x == st)
    rw [h1, h2] at h3
    simpa [Function.comp] using h3
  have hemp : s1.isEmpty = s2.isEmpty := by
    cases s1 <;> cases s2 <;> simp_all
  unfold deployment_status_write
  rw [hemp, hlen]
  simp only [hcnt]

/-- Witness for C6: a reordered, renamed status multiset aggregates the
same. -/
theorem aggregator_perm_invariant_witness :
    deployment_status_write [mkStep "甲" "已完成", mkStep "乙" "进行中", mkStep "丙" "未开始"] =
      deployment_status_write [mkStep "d" "未开始", mkStep "e" "已完成", mkStep "f" "进行中"] :=
  aggregator_perm_invariant _ _ (by decide)

/-- C7: with an empty step list the aggregator performs no status write and
the deployment's prior status persists unchanged. -/
theorem aggregator_empty_steps_noop :
    deployment_status_write [] = none ∧
      ∀ prior : String, update_deployment_status_based_on_steps prior [] = prior :=
  ⟨rfl, fun _ => rfl⟩

/-- C4: `applyStepUpdate` sets `started_at` on a first "进行中" transition,
back-fills `started_at` and always sets `ended_at` on "已完成"; hence
"进行中" at `t1` then "已完成" at `t2 ≥ t1` gives `started_at = t1 ≤
ended_at = t2`, and a direct "已完成" at `t` gives `started_at = ended_at =
t`. -/
theorem step_update_timestamps :
    (∀ (step : Step) (u : StepUpdateDTO) (now : Nat),
        u.status = "进行中" → step.started_at = none →
        (applyStepUpdate step u now).started_at = some now) ∧
    (∀ (step : Step) (u : StepUpdateDTO) (now : Nat),
        u.status = "已完成" →
        (applyStepUpdate step u now).ended_at = some now ∧
        (step.started_at = none → (applyStepUpdate step u now).started_at = some now) ∧
        (∀ t, step.started_at = some t → (applyStepUpdate step u now).started_at = some t)) ∧
    (∀ (n op1 op2 : String) (r1 r2 : Option String) (t1 t2 : Nat), t1 ≤ t2 →
        (applyStepUpdate (applyStepUpdate (freshStep n op1)
            { step_name := n, status := "进行中", operator := op1, remark := r1 } t1)
            { step_name := n, status := "已完成", operator := op2, remark := r2 } t2).started_at
          = some t1 ∧
        (applyStepUpdate (applyStepUpdate (freshStep n op1)
            { step_name := n, status := "进行中", operator := op1, remark := r1 } t1)
            { step_name := n, status := "已完成", operator := op2, remark := r2 } t2).ended_at
          = some t2 ∧
        t1 ≤ t2) ∧
    (∀ (n op : String) (r : Option String) (t : Nat),
        (applyStepUpdate (freshStep n op)
            { step_name := n, status := "已完成", operator := op, remark := r } t).started_at
          = some t ∧
        (applyStepUpdate (freshStep n op)
            { step_name := n, status := "已完成", operator := op, remark := r } t).ended_at
          = some t) := by
  refine ⟨?_, ?_, ?_, ?_⟩
  · intro step u now hu hs
    rw [applyStepUpdate_started_at]
    simp [hu, hs]
  · intro step u now hu
    refine ⟨?_, ?_, ?_⟩
    · rw [applyStepUpdate_ended_at]
      simp [hu]
    · intro hs
      rw [applyStepUpdate_started_at]
      simp [hu, hs]
    · intro t ht
      rw [applyStepUpdate_started_at]
      simp [ht]
  · intro n op1 op2 r1 r2 t1 t2 hle
    refine ⟨?_, ?_, hle⟩
    · rw [applyStepUpdate_started_at, applyStepUpdate_started_at]
      simp [freshStep]
    · rw [applyStepUpdate_ended_at]
      simp
  · intro n op r t
    constructor
    · rw [applyStepUpdate_started_at]
      simp [freshStep]
    · rw [applyStepUpdate_ended_at]
      simp

/-- Witness for C4: the "进行中" at 3 then "已完成" at 7 trajectory on a
fresh step. -/
theorem step_update_timestamps_witness :
    (applyStepUpdate (applyStepUpdate (freshStep "集结" "op1")
        { step_name := "集结", status := "进行中", operator := "op1", remark := none } 3)
        { step_name := "集结", status := "已完成", operator := "op2", remark := none } 7).started_at
      = some 3 ∧
    (applyStepUpdate (applyStepUpdate (freshStep "集结" "op1")
        { step_name := "集结", status := "进行中", operator := "op1", remark := none } 3)
        { step_name := "集结", status := "已完成", operator := "op2", remark := none } 7).ended_at
      = some 7 ∧
    (3 : Nat) ≤ 7 :=
  step_update_timestamps.2.2.1 "集结" "op1" "op2" none none 3 7 (by decide)

/-- C8 counterexample: applying "已完成" and then "未开始" to a fresh step
reaches a state with `ended_at` set while the status is not "已完成", so the
claimed invariant fails on the code (which never clears `ended_at`). -/
theorem step_ended_at_invariant_cex :
    (applyStepUpdates (freshStep "调度" "admin")
        [({ step_name := "调度", status := "已完成", operator := "admin", remark := none }, 0),
         ({ step_name := "调度", status := "未开始", operator := "admin", remark := none }, 1)]).ended_at
      = some 0 ∧
    (applyStepUpdates (freshStep "调度" "admin")
        [({ step_name := "调度", status := "已完成", operator := "admin", remark := none }, 0),
         ({ step_name := "调度", status := "未开始", operator := "admin", remark := none }, 1)]).status
      ≠ "已完成" := by
  constructor
  · rfl
  · decide

/-- C8 (amended): across any update sequence on a fresh step, `ended_at` is
set exactly when some update in the sequence carried status "已完成"; the
stronger "only while status is 已完成" form fails because a later backward
transition overwrites the status but never clears `ended_at`. -/
theorem step_ended_at_iff_completed_update (n op : String)
    (us : List (StepUpdateDTO × Nat)) :
    (applyStepUpdates (freshStep n op) us).ended_at ≠ none ↔
      ∃ p ∈ us, p.1.status = "已完成" := by
  rw [applyStepUpdates_ended_at]
  simp [freshStep]

theorem deployment_template_init_ok (id : String) (now : Nat) (k : TemplateKwargs)
    (i : WInstance) (h : deployment_template_init id now k = .ok i) :
    i.current_step = 0 ∧ i.steps_completed = [] ∧ i.status = "已创建" ∧
    i.steps_total = 5 := by
  unfold deployment_template_init at h
  by_cases hb : (k.emergency_level.isSome ∨ k.response_time.isSome)
  · rw [if_pos hb] at h
    cases h
  · rw [if_neg hb] at h
    cases h
    exact ⟨rfl, rfl, rfl, rfl⟩

/-- C2: when all five phase hooks succeed, `execute_deployment` ends with
status "已完成", `current_step = 5`, five completed steps, a final
completion log entry, and a result dictionary carrying id, name, status,
the completed-step count 5, `steps_total = 5`, `updated_at` and no error. -/
theorem template_execute_success (v : Variant) (i : WInstance) (now : Nat)
    (i5 : WInstance)
    (ht : ∀ p ∈ v.hooks, HookTame p.2)
    (hcs : i.current_step = 0) (hsc : i.steps_completed = [])
    (hst : i.steps_total = 5)
    (hrun : run_phases v.hooks (log_step i "开始部署流程" "信息" now) now = .ok i5) :
    (execute_deployment v i now).1.status = "已完成" ∧
    (execute_deployment v i now).1.current_step = 5 ∧
    (execute_deployment v i now).1.steps_completed.length = 5 ∧
    (execute_deployment v i now).1.logs.getLast? =
      some { timestamp := now, step := 5, message := "部署流程完成", level := "信息" } ∧
    (execute_deployment v i now).2 =
      { id := i.id, name := i.name, status := "已完成", steps_completed := 5,
        steps_total := 5, updated_at := now, error := none } := by
  obtain ⟨hid, hname, hstotal, hcs5, hsc5⟩ :=
    run_phases_ok_fields v.hooks _ i5 now ht hrun
  simp only [log_step] at hid hname hstotal hcs5 hsc5
  have hlen : (Variant.hooks v).length = 5 := rfl
  rw [hlen, hcs] at hcs5
  rw [hlen, hsc] at hsc5
  have hcs5' : i5.current_step = 5 := by simpa using hcs5
  have hsc5' : i5.steps_completed.length = 5 := by simpa using hsc5
  have hstot' : i5.steps_total = 5 := by rw [hstotal, hst]
  simp only [execute_deployment]
  rw [hrun]
  refine ⟨rfl, hcs5', hsc5', ?_, ?_⟩
  · show ((_ : WInstance).logs ++ [_]).getLast? = _
    rw [List.getLast?_concat]
    simp [hcs5']
  · simp [log_step, ExecResult.mk.injEq, hid, hname, hsc5', hstot']

/-- Witness for C2: the all-phases-succeed variant on a fresh instance. -/
theorem template_execute_success_witness :
    (execute_deployment okVariant sampleInstance 7).1.status = "已完成" ∧
    (execute_deployment okVariant sampleInstance 7).1.current_step = 5 ∧
    (execute_deployment okVariant sampleInstance 7).1.steps_completed.length = 5 ∧
    (execute_deployment okVariant sampleInstance 7).1.logs.getLast? =
      some { timestamp := 7, step := 5, message := "部署流程完成", level := "信息" } ∧
    (execute_deployment okVariant sampleInstance 7).2 =
      { id := sampleInstance.id, name := sampleInstance.name, status := "已完成",
        steps_completed := 5, steps_total := 5, updated_at := 7, error := none } :=
  template_execute_success okVariant sampleInstance 7 _ okVariant_tame rfl rfl rfl rfl

/-- C3: if the first `k-1` hooks succeed and the `k`-th hook raises `e`, the
run stops there (the conclusion places no constraint on, and the hypotheses
never mention, any hook after the `k`-th), the final status is "失败", the
result carries `steps_completed = k-1` and the error message, the last log
entry is at level "错误" and contains the raised text, and no exception
escapes (`execute_deployment` is a total function returning a result). -/
theorem template_execute_failure (v : Variant) (i : WInstance) (now : Nat)
    (k : Nat) (hk1 : 1 ≤ k) (hk5 : k ≤ 5)
    (ht : ∀ p ∈ v.hooks.take (k - 1), HookTame p.2)
    (hcs : i.current_step = 0) (hsc : i.steps_completed = [])
    (j : WInstance) (msg e : String) (hc : Hook)
    (hpre : run_phases (v.hooks.take (k - 1))
        (log_step i "开始部署流程" "信息" now) now = .ok j)
    (hget : v.hooks.get? (k - 1) = some (msg, hc))
    (hfail : hc (log_step j msg "信息" now) = .error e) :
    (execute_deployment v i now).1.status = "失败" ∧
    (execute_deployment v i now).2.status = "失败" ∧
    (execute_deployment v i now).2.steps_completed = k - 1 ∧
    (execute_deployment v i now).1.steps_completed.length = k - 1 ∧
    (execute_deployment v i now).1.current_step = k - 1 ∧
    (execute_deployment v i now).2.error = some e ∧
    (∃ entry, (execute_deployment v i now).1.logs.getLast? = some entry ∧
        entry.level = "错误" ∧ ∃ p q, entry.message = p ++ e ++ q) := by
  have hlen : (Variant.hooks v).length = 5 := rfl
  have hklt : k - 1 < (Variant.hooks v).length := by
    rw [hlen]
    omega
  rw [List.get?_eq_getElem?] at hget
  have hnth : (Variant.hooks v)[k - 1] = (msg, hc) := by
    have h2 := List.getElem?_eq_getElem hklt
    rw [h2] at hget
    exact Option.some.inj hget
  have hdecomp : Variant.hooks v =
      (Variant.hooks v).take (k - 1) ++
        (msg, hc) :: (Variant.hooks v).drop (k - 1 + 1) := by
    conv_lhs => rw [← List.take_append_drop (k - 1) (Variant.hooks v)]
    rw [List.drop_eq_getElem_cons hklt, hnth]
  have hrunfull : run_phases (Variant.hooks v)
      (log_step i "开始部署流程" "信息" now) now
      = .error (e, log_step j msg "信息" now) := by
    rw [hdecomp, run_phases_append, hpre]
    simp only [run_phases]
    rw [hfail]
  obtain ⟨jid, jname, jst, jcs, jsc⟩ :=
    run_phases_ok_fields _ _ j now ht hpre
  simp only [log_step] at jid jname jst jcs jsc
  have htklen : ((Variant.hooks v).take (k - 1)).length = k - 1 := by
    rw [List.length_take, hlen]
    omega
  rw [htklen, hsc] at jsc
  rw [htklen, hcs] at jcs
  have hjsc : j.steps_completed.length = k - 1 := by simpa using jsc
  have hjcs : j.current_step = k - 1 := by simpa using jcs
  simp only [execute_deployment]
  rw [hrunfull]
  refine ⟨rfl, rfl, ?_, ?_, ?_, rfl, ?_⟩
  · simpa [log_step] using hjsc
  · simpa [log_step] using hjsc
  · simpa [log_step] using hjcs
  · refine ⟨{ timestamp := now, step := j.current_step,
              message := "部署失败: " ++ e, level := "错误" }, ?_, rfl,
            "部署失败: ", "", ?_⟩
    · show ((_ : WInstance).logs ++ [_]).getLast? = _
      rw [List.getLast?_concat]
      rfl
    · simp

/-- Witness for C3: a variant whose third phase (`perform_deployment`)
raises "网络中断": two completed steps, failed status, error log. -/
theorem template_execute_failure_witness :
    (execute_deployment failAtPerformVariant sampleInstance 7).1.status = "失败" ∧
    (execute_deployment failAtPerformVariant sampleInstance 7).2.status = "失败" ∧
    (execute_deployment failAtPerformVariant sampleInstance 7).2.steps_completed = 3 - 1 ∧
    (execute_deployment failAtPerformVariant sampleInstance 7).1.steps_completed.length = 3 - 1 ∧
    (execute_deployment failAtPerformVariant sampleInstance 7).1.current_step = 3 - 1 ∧
    (execute_deployment failAtPerformVariant sampleInstance 7).2.error = some "网络中断" ∧
    (∃ entry,
        (execute_deployment failAtPerformVariant sampleInstance 7).1.logs.getLast? = some entry ∧
        entry.level = "错误" ∧ ∃ p q, entry.message = p ++ "网络中断" ++ q) :=
  template_execute_failure failAtPerformVariant sampleInstance 7 3 (by decide) (by decide)
    (by
      intro p hp
      have htk : (Variant.hooks failAtPerformVariant).take (3 - 1) =
          [("1. 准备阶段", idHook), ("2. 资源调配", idHook)] := rfl
      rw [htk] at hp
      simp only [List.mem_cons, List.not_mem_nil, or_false] at hp
      rcases hp with h | h <;> subst h <;> exact idHook_tame)
    rfl rfl _ "3. 执行部署" "网络中断" (failHook "网络中断") rfl rfl rfl

/-- C10: `steps_completed` always equals `[1, …, current_step]`: it holds at
construction (base and emergency `__init__`), is preserved by every
`_complete_step` and by the phase loop in both outcomes, and forces the
completed-step count returned to equal `current_step`. -/
theorem steps_completed_progress_invariant :
    (∀ (id : String) (now : Nat) (k : TemplateKwargs) (i : WInstance),
        deployment_template_init id now k = .ok i → StepsInv i) ∧
    (∀ (id : String) (now : Nat) (k : TemplateKwargs) (i : WInstance),
        emergency_deployment_init id now k = .ok i → StepsInv i) ∧
    (∀ (i : WInstance) (now : Nat), StepsInv i → StepsInv (complete_step i now)) ∧
    (∀ (l : List (String × Hook)) (i : WInstance) (now : Nat),
        (∀ p ∈ l, HookTame p.2) → StepsInv i →
        (∀ i', run_phases l i now = .ok i' → StepsInv i') ∧
        (∀ e i', run_phases l i now = .error (e, i') → StepsInv i')) ∧
    (∀ i : WInstance, StepsInv i → i.steps_completed.length = i.current_step) := by
  refine ⟨?_, ?_, complete_step_steps_inv, run_phases_steps_inv, ?_⟩
  · intro id now k i h
    obtain ⟨h1, h2, -, -⟩ := deployment_template_init_ok id now k i h
    simp [StepsInv, h1, h2]
  · intro id now k i h
    unfold emergency_deployment_init at h
    cases hbase : deployment_template_init id now k with
    | error e =>
      rw [hbase] at h
      cases h
    | ok i0 =>
      rw [hbase] at h
      cases h
      obtain ⟨h1, h2, -, -⟩ := deployment_template_init_ok id now k i0 hbase
      simp [StepsInv, h1, h2]
  · intro i h
    rw [StepsInv] at h
    rw [h]
    simp

/-- Witness for C10: one `_complete_step` on a fresh instance keeps the
invariant, and the invariant forces count = current step. -/
theorem steps_completed_progress_invariant_witness :
    StepsInv (complete_step sampleInstance 3) ∧
    (complete_step sampleInstance 3).steps_completed.length =
      (complete_step sampleInstance 3).current_step :=
  ⟨steps_completed_progress_invariant.2.2.1 sampleInstance 3 rfl,
   steps_completed_progress_invariant.2.2.2.2 (complete_step sampleInstance 3)
     (steps_completed_progress_invariant.2.2.1 sampleInstance 3 rfl)⟩

/-- C5: the factory rejects every type tag outside
{"标准部署", "紧急部署", "训练部署"} with a `ValueError` and constructs no
instance, while each of the three valid tags yields the matching variant
(for construction kwargs without the unsupported emergency extras). -/
theorem factory_dispatch (dt id : String) (now : Nat) (k : TemplateKwargs)
    (hwf1 : k.emergency_level = none) (hwf2 : k.response_time = none) :
    ((dt ≠ "标准部署" ∧ dt ≠ "紧急部署" ∧ dt ≠ "训练部署") →
        create_deployment dt id now k =
          .error (.valueError ("不支持的部署类型: " ++ dt))) ∧
    (∃ vi, create_deployment "标准部署" id now k = .ok vi ∧ vi.dtype = "标准部署") ∧
    (∃ vi, create_deployment "紧急部署" id now k = .ok vi ∧ vi.dtype = "紧急部署") ∧
    (∃ vi, create_deployment "训练部署" id now k = .ok vi ∧ vi.dtype = "训练部署") := by
  have hbase : ∃ inst, deployment_template_init id now k = .ok inst := by
    unfold deployment_template_init
    rw [hwf1, hwf2]
    simp
  obtain ⟨inst, hinst⟩ := hbase
  have hem : ∃ inst2, emergency_deployment_init id now k = .ok inst2 := by
    unfold emergency_deployment_init
    rw [hinst]
    exact ⟨_, rfl⟩
  obtain ⟨inst2, hinst2⟩ := hem
  refine ⟨?_, ?_, ?_, ?_⟩
  · rintro ⟨h1, h2, h3⟩
    simp [create_deployment, h1, h2, h3]
  · exact ⟨⟨"标准部署", inst⟩, by simp [create_deployment, hinst, Except.map], rfl⟩
  · exact ⟨⟨"紧急部署", inst2⟩, by simp [create_deployment, hinst2, Except.map], rfl⟩
  · exact ⟨⟨"训练部署", inst⟩, by simp [create_deployment, hinst, Except.map], rfl⟩

/-- Witness for C5: the literal unknown tag "未知类型" is rejected with the
`ValueError` and no instance. -/
theorem factory_dispatch_witness :
    create_deployment "未知类型" "id-9" 0 sampleKwargs =
      .error (.valueError ("不支持的部署类型: " ++ "未知类型")) :=
  (factory_dispatch "未知类型" "id-9" 0 sampleKwargs rfl rfl).1
    ⟨by decide, by decide, by decide⟩

/-- C9: supplying `emergency_level` (or `response_time`) at construction
raises `TypeError` inside `super().__init__` — the supplied value can never
reach `attributes` — while omitting them produces an instance whose
attributes carry the defaults "高" and "2小时内".  This contradicts the
claim that supplied values flow into the attributes, exposing the
dead-parameter slip in `EmergencyDeployment.__init__`. -/
theorem emergency_attributes_kwargs_behavior :
    emergency_deployment_init "id-1" 0
        { sampleKwargs with emergency_level := some "中" } =
      .error (.typeError "__init__() got an unexpected keyword argument") ∧
    emergency_deployment_init "id-1" 0
        { sampleKwargs with response_time := some "1小时内" } =
      .error (.typeError "__init__() got an unexpected keyword argument") ∧
    (∃ i, emergency_deployment_init "id-1" 0 sampleKwargs = .ok i ∧
        attrGet i.attributes "emergency_level" = some (.str "高") ∧
        attrGet i.attributes "response_time_required" = some (.str "2小时内")) :=
  ⟨rfl, rfl, ⟨_, rfl, rfl, rfl⟩⟩

end IoMt

